import Mathlib

/-!
# Verification of the netenrich issue lifecycle and overdue-notification pipeline

Shallow embedding of the core of the repository (the `IssueService` in
`app/issues/service.py`, the sweep in `app/scheduler/service.py`, and the
data model of `app/issues/model.py` / `app/books/model.py`), together with
theorems settling the specification claims about it.

Timestamps are modelled as integers (seconds); `datetime.now()` becomes an
explicit `now : Time` parameter and `timedelta(days = d)` becomes
`d * secondsPerDay`.  The database tables become lists of records in a
`LibState`; a SQL `UPDATE ... WHERE id = ?` becomes a map over the list,
and the mutation of a single ORM object fetched by primary key becomes an
update of the first list entry with that id.  `HTTPException` with status
404 is modelled as `Err.notFound` and with status 400 as `Err.conflict`,
following the spec's error taxonomy, with the detail strings of the source.
-/

namespace NetEnrich

/-- Timestamps in seconds. -/
abbrev Time := Int

/-- One day, in seconds (`timedelta(days=1)`). -/
def secondsPerDay : Int := 86400

/-- The `Book` row of `app/books/model.py` (the fields the core reads/writes). -/
structure Book where
  id : Nat
  total_copies : Int
  available_copies : Int
  deriving Repr, DecidableEq

/-- The `Issue` row of `app/issues/model.py`. -/
structure Issue where
  id : Nat
  book_id : Nat
  student_id : Nat
  issue_date : Time
  due_date : Time
  return_date : Option Time
  is_returned : Bool
  overdue_notices_sent : Int
  last_notice_sent : Option Time
  deriving Repr, DecidableEq

/-- The `IssueCreate` schema of `app/schemas/issue.py`: `days_to_return`
defaults to `14`. -/
structure IssueCreate where
  book_id : Nat
  student_id : Nat
  days_to_return : Int := 14
  deriving Repr, DecidableEq

/-- Error outcomes: `HTTPException(404, detail)` is `notFound detail`,
`HTTPException(400, detail)` is `conflict detail`. -/
inductive Err where
  | notFound (detail : String)
  | conflict (detail : String)
  deriving Repr, DecidableEq

/-- Detail string of the book-missing 404. -/
def msgBookNotFound : String := "Book not found"

/-- Detail string of the no-copies 400. -/
def msgNoCopies : String := "No available copies of this book"

/-- Detail string of the student-missing 404. -/
def msgStudentNotFound : String := "Student not found"

/-- Detail string of the duplicate-issue 400. -/
def msgAlreadyIssued : String := "Student already has this book issued"

/-- Detail string of the issue-missing 404. -/
def msgIssueNotFound : String := "Issue record not found"

/-- Detail string of the already-returned 400. -/
def msgAlreadyReturned : String := "Book already returned"

/-- The database state the core touches: the `books` table, the set of
student `user_id`s present in the `students` table, the `issues` table,
and the autoincrement counter supplying primary keys for new issues. -/
structure LibState where
  books : List Book
  students : List Nat
  issues : List Issue
  nextIssueId : Nat
  deriving Repr, DecidableEq

/-- Query `select(Book).where(Book.id == bid)` + `scalar_one_or_none()`. -/
def findBook (s : LibState) (bid : Nat) : Option Book :=
  s.books.find? (fun b => b.id == bid)

/-- Query `select(Student).where(Student.user_id == sid)` yields a row. -/
def hasStudent (s : LibState) (sid : Nat) : Bool :=
  s.students.contains sid

/-- The predicate of the duplicate-issue query in `issue_book`:
`Issue.book_id == bid AND Issue.student_id == sid AND Issue.is_returned == False`. -/
def activeFor (i : Issue) (bid sid : Nat) : Bool :=
  i.book_id == bid && i.student_id == sid && !i.is_returned

/-- Query `select(Issue).where(and_(book_id == bid, student_id == sid,
is_returned == False))` + `scalar_one_or_none()`. -/
def findActiveIssue (s : LibState) (bid sid : Nat) : Option Issue :=
  s.issues.find? (fun i => activeFor i bid sid)

/-- Query `select(Issue).where(Issue.id == iid)` + `scalar_one_or_none()`. -/
def findIssue (s : LibState) (iid : Nat) : Option Issue :=
  s.issues.find? (fun i => i.id == iid)

/-- Update `update(Book)...values(available_copies = Book.available_copies - 1)`. -/
def decBookCopies (books : List Book) (bid : Nat) : List Book :=
  books.map (fun b =>
    if b.id == bid then { b with available_copies := b.available_copies - 1 } else b)

/-- Update `update(Book)...values(available_copies = Book.available_copies + 1)`. -/
def incBookCopies (books : List Book) (bid : Nat) : List Book :=
  books.map (fun b =>
    if b.id == bid then { b with available_copies := b.available_copies + 1 } else b)

/-- Mutation of the single ORM `Issue` object fetched by primary key in
`return_book`: mark the first row with id `iid` returned at `now`. -/
def markReturned : List Issue → Nat → Time → List Issue
  | [], _, _ => []
  | i :: rest, iid, now =>
    if i.id == iid then
      { i with is_returned := true, return_date := some now } :: rest
    else i :: markReturned rest iid now

/-- The `Issue` row inserted by `issue_book` with primary key `iid`:
`due_date = now + days_to_return` days; `return_date`, `is_returned`,
`overdue_notices_sent`, `last_notice_sent` take their column defaults. -/
def mkIssueRow (d : IssueCreate) (now : Time) (iid : Nat) : Issue :=
  { id := iid
    book_id := d.book_id
    student_id := d.student_id
    issue_date := now
    due_date := now + d.days_to_return * secondsPerDay
    return_date := none
    is_returned := false
    overdue_notices_sent := 0
    last_notice_sent := none }

/-- Model of `IssueService.issue_book` (`app/issues/service.py`): checks in source
order — book exists, available copies, student exists, duplicate active
issue — then persists the new `Issue` and decrements the book's available
copies, in one commit. -/
def issue_book (s : LibState) (d : IssueCreate) (now : Time) :
    Except Err (Issue × LibState) :=
  match findBook s d.book_id with
  | none => .error (.notFound msgBookNotFound)
  | some book =>
    if book.available_copies ≤ 0 then
      .error (.conflict msgNoCopies)
    else if hasStudent s d.student_id then
      match findActiveIssue s d.book_id d.student_id with
      | some _ => .error (.conflict msgAlreadyIssued)
      | none =>
        .ok (mkIssueRow d now s.nextIssueId,
          { s with
              issues := s.issues ++ [mkIssueRow d now s.nextIssueId]
              books := decBookCopies s.books d.book_id
              nextIssueId := s.nextIssueId + 1 })
    else .error (.notFound msgStudentNotFound)

/-- Model of `IssueService.return_book`: not-found and already-returned checks, then
marks the issue returned with `return_date = now` and increments the book's
available copies, in one commit. -/
def return_book (s : LibState) (iid : Nat) (now : Time) :
    Except Err (Issue × LibState) :=
  match findIssue s iid with
  | none => .error (.notFound msgIssueNotFound)
  | some issue =>
    if issue.is_returned then .error (.conflict msgAlreadyReturned)
    else
      .ok ({ issue with is_returned := true, return_date := some now },
        { s with
            issues := markReturned s.issues iid now
            books := incBookCopies s.books issue.book_id })

/-- The state after an `issue_book` request: on an `HTTPException` the
session is not committed, so the database keeps its prior state. -/
def issueStep (s : LibState) (d : IssueCreate) (now : Time) : LibState :=
  match issue_book s d now with
  | .ok (_, s') => s'
  | .error _ => s

/-- The state after a `return_book` request; failures leave the state. -/
def returnStep (s : LibState) (iid : Nat) (now : Time) : LibState :=
  match return_book s iid now with
  | .ok (_, s') => s'
  | .error _ => s

/-- The comparison behind `order_by(Issue.due_date.asc())`. -/
def dueLE (a b : Issue) : Prop := a.due_date ≤ b.due_date

instance : DecidableRel dueLE := fun a b => Int.decLe a.due_date b.due_date

instance : IsTotal Issue dueLE := ⟨fun a b => Int.le_total a.due_date b.due_date⟩

instance : IsTrans Issue dueLE := ⟨fun _ _ _ h h' => le_trans h h'⟩

/-- Sorting `ORDER BY due_date ASC`: a stable sort by due date. -/
def sortByDue (l : List Issue) : List Issue := l.insertionSort dueLE

/-- Model of `IssueService.get_overdue_books`: unreturned issues with
`due_date < now`, ordered by due date ascending. -/
def get_overdue_books (s : LibState) (now : Time) : List Issue :=
  sortByDue (s.issues.filter (fun i => !i.is_returned && i.due_date < now))

/-- Model of `IssueService.get_books_due_soon`: unreturned issues with
`now < due_date ≤ now + days`, ordered by due date ascending. -/
def get_books_due_soon (s : LibState) (now : Time) (days : Int) : List Issue :=
  let threshold := now + days * secondsPerDay
  sortByDue (s.issues.filter (fun i =>
    !i.is_returned && now < i.due_date && i.due_date ≤ threshold))

/-- Model of `IssueService.update_last_notice_sent`: `update(Issue).where(Issue.id
== iid).values(last_notice_sent = t)` + commit. -/
def update_last_notice_sent (s : LibState) (iid : Nat) (t : Time) : LibState :=
  { s with
      issues := s.issues.map (fun i =>
        if i.id == iid then { i with last_notice_sent := some t } else i) }

/-- Classification of a dispatched notification by its call site in the
sweep: the overdue loop or the due-soon loop. -/
inductive Category where
  | overdue
  | dueSoon
  deriving Repr, DecidableEq

/-- A `NotificationService.send_overdue_notification` call, abstracted to
the data the sweep passes: the issue, the loop it came from, and the
`days_overdue` argument (`0` for the due-soon loop, its default). -/
structure NotifEvent where
  issue_id : Nat
  category : Category
  days_overdue : Int
  deriving Repr, DecidableEq

/-- The due-soon cooldown test of `check_overdue_books`:
`not issue.last_notice_sent or (now - last_notice_sent) > timedelta(days=1)`. -/
def needsNotice (i : Issue) (now : Time) : Bool :=
  match i.last_notice_sent with
  | none => true
  | some t => decide (now - t > secondsPerDay)

/-- The event queued for one overdue issue:
`days_overdue = (now - due_date).days`, Python floor division. -/
def overdueEvent (now : Time) (i : Issue) : NotifEvent :=
  { issue_id := i.id, category := .overdue,
    days_overdue := Int.fdiv (now - i.due_date) secondsPerDay }

/-- The event queued for one due-soon issue (`days_overdue` defaults to 0). -/
def dueSoonEvent (i : Issue) : NotifEvent :=
  { issue_id := i.id, category := .dueSoon, days_overdue := 0 }

/-- The overdue loop of `SchedulerService.check_overdue_books`: dispatch
for every issue in order; `d i = false` models the awaited dispatch raising
for issue `i`, which ends the loop (the whole loop body sits in one `try`
with no per-issue handler).  Returns the events queued before the failure
and whether the loop finished. -/
def processOverdue (d : Issue → Bool) (now : Time) :
    List Issue → List NotifEvent × Bool
  | [] => ([], true)
  | i :: rest =>
    if d i then
      let r := processOverdue d now rest
      (overdueEvent now i :: r.1, r.2)
    else ([], false)

/-- The per-issue commit `issue.last_notice_sent = now` on the ORM row
fetched by the due-soon query (first row with that primary key). -/
def markNoticed : List Issue → Nat → Time → List Issue
  | [], _, _ => []
  | j :: rest, iid, t =>
    if j.id == iid then { j with last_notice_sent := some t } :: rest
    else j :: markNoticed rest iid t

/-- The due-soon loop of `SchedulerService.check_overdue_books`: for each
fetched issue passing the cooldown test, dispatch (abort on failure, as
above), then set `last_notice_sent = now` on the fetched row and commit.
Threads the `issues` table through the per-issue commits. -/
def processDueSoon (d : Issue → Bool) (now : Time) :
    List Issue → List Issue → List NotifEvent × List Issue × Bool
  | issues, [] => ([], issues, true)
  | issues, i :: rest =>
    if needsNotice i now then
      if d i then
        let r := processDueSoon d now (markNoticed issues i.id now) rest
        (dueSoonEvent i :: r.1, r.2)
      else ([], issues, false)
    else processDueSoon d now issues rest

/-- The outcome of one sweep run: the notifications queued via
`background_tasks.add_task`, the ones actually run (the queue runs only at
the end of a run that reached `await background_tasks()`), the database
state, and whether the `try` block finished without an exception. -/
structure SweepResult where
  tasks : List NotifEvent
  sent : List NotifEvent
  state : LibState
  completed : Bool
  deriving Repr, DecidableEq

/-- Model of `SchedulerService.check_overdue_books`: fetch overdue and due-soon
issues, queue overdue notices unconditionally, queue due-soon notices under
the 1-day cooldown, run the queued tasks at the end; any exception aborts
the rest of the run but is caught and logged at the run boundary. -/
def check_overdue_books (s : LibState) (d : Issue → Bool) (now : Time) :
    SweepResult :=
  let overdue := get_overdue_books s now
  let dueSoon := get_books_due_soon s now 5
  let ov := processOverdue d now overdue
  if ov.2 then
    let ds := processDueSoon d now s.issues dueSoon
    if ds.2.2 then
      { tasks := ov.1 ++ ds.1, sent := ov.1 ++ ds.1,
        state := { s with issues := ds.2.1 }, completed := true }
    else
      { tasks := ov.1 ++ ds.1, sent := [],
        state := { s with issues := ds.2.1 }, completed := false }
  else
    { tasks := ov.1, sent := [], state := s, completed := false }

/-- The checks of `issue_book` up to the first write, reading the committed
state: the failure they raise, if any.  Used by the concurrency model. -/
def issueChecks (s : LibState) (d : IssueCreate) : Option Err :=
  match findBook s d.book_id with
  | none => some (.notFound msgBookNotFound)
  | some book =>
    if book.available_copies ≤ 0 then
      some (.conflict msgNoCopies)
    else if hasStudent s d.student_id then
      match findActiveIssue s d.book_id d.student_id with
      | some _ => some (.conflict msgAlreadyIssued)
      | none => none
    else some (.notFound msgStudentNotFound)

/-- The writes of `issue_book` as applied at commit: insert the new row
(primary key `iid` from the sequence) and apply the relative decrement
`available_copies = available_copies - 1` to the then-current row value. -/
def issueWrites (s : LibState) (d : IssueCreate) (now : Time) (iid : Nat) :
    LibState :=
  { s with
      issues := s.issues ++ [mkIssueRow d now iid]
      books := decBookCopies s.books d.book_id }

/-- Two concurrent `issue_book` transactions under the schedule
check₁, check₂, commit₁, commit₂ (each SELECT reads committed state; each
relative UPDATE applies atomically to the current value — the read-
committed behaviour of the source, which takes no row lock between its
availability check and its decrement).  Returns both outcomes and the
final state. -/
def issueRace (s : LibState) (d1 d2 : IssueCreate) (now : Time) :
    Option Err × Option Err × LibState :=
  let c1 := issueChecks s d1
  let c2 := issueChecks s d2
  let s1 := if c1 = none then issueWrites s d1 now s.nextIssueId else s
  let s2 := if c2 = none then issueWrites s1 d2 now (s.nextIssueId + 1) else s1
  (c1, c2, s2)

/-- One request against the Issue Service Façade. -/
inductive Op where
  | issue (d : IssueCreate) (now : Time)
  | ret (iid : Nat) (now : Time)

/-- Apply one façade request; a failed request leaves the state. -/
def applyOp (s : LibState) : Op → LibState
  | .issue d now => issueStep s d now
  | .ret iid now => returnStep s iid now

/-- Apply a sequence of façade requests. -/
def runOps (s : LibState) (ops : List Op) : LibState :=
  ops.foldl applyOp s

/-- Any core operation: a façade request, a sweep run (with its dispatch
outcomes), or an `update_last_notice_sent` call. -/
inductive FullOp where
  | issue (d : IssueCreate) (now : Time)
  | ret (iid : Nat) (now : Time)
  | sweep (d : Issue → Bool) (now : Time)
  | notice (iid : Nat) (t : Time)

/-- Apply one core operation to the database state. -/
def applyFullOp (s : LibState) : FullOp → LibState
  | .issue d now => issueStep s d now
  | .ret iid now => returnStep s iid now
  | .sweep d now => (check_overdue_books s d now).state
  | .notice iid t => update_last_notice_sent s iid t

/-- Apply a sequence of core operations. -/
def runFullOps (s : LibState) (ops : List FullOp) : LibState :=
  ops.foldl applyFullOp s

/-- Count of unreturned issues for the book with id `bid`. -/
def unreturnedCount (issues : List Issue) (bid : Nat) : Nat :=
  (issues.filter (fun i => i.book_id == bid && !i.is_returned)).length

/-- Two issue rows do not both hold the same (book, student) pair open. -/
def PairFree (i j : Issue) : Prop :=
  ¬(i.book_id = j.book_id ∧ i.student_id = j.student_id ∧
    i.is_returned = false ∧ j.is_returned = false)

instance : DecidableRel PairFree := fun i j => by
  unfold PairFree; infer_instance

/-- A consistent database state: book primary keys are unique; every
book's `available_copies` equals `total_copies` minus its unreturned-issue
count, and lies between 0 and `total_copies`; and no (book, student) pair
has two unreturned issues. -/
def ConsistentState (s : LibState) : Prop :=
  s.books.Pairwise (fun a b => a.id ≠ b.id)
  ∧ (∀ b ∈ s.books,
      b.available_copies = b.total_copies - (unreturnedCount s.issues b.id : Int)
      ∧ 0 ≤ b.available_copies ∧ b.available_copies ≤ b.total_copies)
  ∧ s.issues.Pairwise PairFree

instance (s : LibState) : Decidable (ConsistentState s) := by
  unfold ConsistentState; infer_instance

/-! ## General lemmas about the queries -/

theorem mem_sortByDue {l : List Issue} {i : Issue} : i ∈ sortByDue l ↔ i ∈ l :=
  List.mem_insertionSort dueLE

theorem sortByDue_sorted (l : List Issue) : (sortByDue l).Pairwise dueLE :=
  List.sorted_insertionSort dueLE l

theorem mem_get_books_due_soon {s : LibState} {now w : Time} {i : Issue} :
    i ∈ get_books_due_soon s now w ↔
      i ∈ s.issues ∧ i.is_returned = false ∧ now < i.due_date ∧
        i.due_date ≤ now + w * secondsPerDay := by
  unfold get_books_due_soon
  rw [mem_sortByDue, List.mem_filter]
  simp [Bool.and_eq_true, decide_eq_true_eq, Bool.not_eq_true', and_assoc]

theorem mem_get_overdue_books {s : LibState} {now : Time} {i : Issue} :
    i ∈ get_overdue_books s now ↔
      i ∈ s.issues ∧ i.is_returned = false ∧ i.due_date < now := by
  unfold get_overdue_books
  rw [mem_sortByDue, List.mem_filter]
  simp [Bool.and_eq_true, decide_eq_true_eq, Bool.not_eq_true', and_assoc]

/-! ## C5 -/

/-- An unreturned issue due in 3 days (measuring from time 0). -/
def dueIn3 : Issue := ⟨1, 1, 7, 0, 3 * 86400, none, false, 0, none⟩

/-- An unreturned issue due in 7 days. -/
def dueIn7 : Issue := ⟨2, 1, 8, 0, 7 * 86400, none, false, 0, none⟩

/-- An unreturned issue that is already overdue at time 0. -/
def alreadyOverdue : Issue := ⟨3, 2, 7, 0, -86400, none, false, 0, none⟩

/-- A ledger holding the three issues above. -/
def windowDemoState : LibState :=
  { books := [], students := [], issues := [dueIn7, alreadyOverdue, dueIn3],
    nextIssueId := 4 }

/-- C5: `listDueSoon(windowDays)` returns exactly the issues with
`returned = false` and `now < due ≤ now + windowDays`, ordered by due date
ascending; with `windowDays = 5` it returns the issue due in 3 days and
excludes the one due in 7 days and the already-overdue one. -/
theorem due_soon_window_characterization :
    (∀ (s : LibState) (now w : Time) (i : Issue),
        i ∈ get_books_due_soon s now w ↔
          i ∈ s.issues ∧ i.is_returned = false ∧ now < i.due_date ∧
            i.due_date ≤ now + w * secondsPerDay)
    ∧ (∀ (s : LibState) (now w : Time),
        (get_books_due_soon s now w).Pairwise (fun a b => a.due_date ≤ b.due_date))
    ∧ get_books_due_soon windowDemoState 0 5 = [dueIn3] :=
  ⟨fun _ _ _ _ => mem_get_books_due_soon,
   fun s now w => sortByDue_sorted _,
   by decide⟩

/-! ## C9 -/

/-- The shared state of the C9 race: one book with a single available copy
and two students (7 and 8). -/
def lastCopyState : LibState :=
  { books := [⟨1, 1, 1⟩], students := [7, 8], issues := [], nextIssueId := 0 }

/-- C9: two concurrent `issue_book` calls for the last copy of book 1,
interleaved check₁-check₂-commit₁-commit₂, both pass their availability
check (neither observes a `Conflict`) and both commit: two unreturned
issues exist and `available_copies` ends at `-1` — the code has no
locking or retry between its availability check and its decrement, so the
at-most-one-winner requirement is violated. -/
theorem concurrent_issue_last_copy_both_succeed :
    (issueRace lastCopyState ⟨1, 7, 14⟩ ⟨1, 8, 14⟩ 0).1 = none
    ∧ (issueRace lastCopyState ⟨1, 7, 14⟩ ⟨1, 8, 14⟩ 0).2.1 = none
    ∧ findBook (issueRace lastCopyState ⟨1, 7, 14⟩ ⟨1, 8, 14⟩ 0).2.2 1 =
        some ⟨1, 1, -1⟩
    ∧ unreturnedCount
        (issueRace lastCopyState ⟨1, 7, 14⟩ ⟨1, 8, 14⟩ 0).2.2.issues 1 = 2 :=
  ⟨by decide, by decide, by decide, by decide⟩

/-! ## Lemmas about the façade operations -/

theorem find?_incBookCopies (books : List Book) (bid : Nat) {b : Book}
    (h : books.find? (fun x => x.id == bid) = some b) :
    (incBookCopies books bid).find? (fun x => x.id == bid) =
      some { b with available_copies := b.available_copies + 1 } := by
  unfold incBookCopies
  rw [List.find?_map]
  have hp : ((fun x : Book => x.id == bid) ∘ fun x : Book =>
      if x.id == bid then { x with available_copies := x.available_copies + 1 }
      else x) = fun x : Book => x.id == bid := by
    funext x; by_cases hx : x.id = bid <;> simp [hx]
  rw [hp, h]
  have hb : b.id = bid := by simpa using List.find?_some h
  simp [hb]

theorem find?_decBookCopies (books : List Book) (bid : Nat) {b : Book}
    (h : books.find? (fun x => x.id == bid) = some b) :
    (decBookCopies books bid).find? (fun x => x.id == bid) =
      some { b with available_copies := b.available_copies - 1 } := by
  unfold decBookCopies
  rw [List.find?_map]
  have hp : ((fun x : Book => x.id == bid) ∘ fun x : Book =>
      if x.id == bid then { x with available_copies := x.available_copies - 1 }
      else x) = fun x : Book => x.id == bid := by
    funext x; by_cases hx : x.id = bid <;> simp [hx]
  rw [hp, h]
  have hb : b.id = bid := by simpa using List.find?_some h
  simp [hb]

theorem issue_book_ok_cases {s : LibState} {d : IssueCreate} {now : Time}
    {i : Issue} {s' : LibState} (h : issue_book s d now = .ok (i, s')) :
    ∃ book, findBook s d.book_id = some book ∧ 0 < book.available_copies
      ∧ hasStudent s d.student_id = true
      ∧ findActiveIssue s d.book_id d.student_id = none
      ∧ i = mkIssueRow d now s.nextIssueId
      ∧ s' = { s with
          issues := s.issues ++ [mkIssueRow d now s.nextIssueId]
          books := decBookCopies s.books d.book_id
          nextIssueId := s.nextIssueId + 1 } := by
  cases hfb : findBook s d.book_id with
  | none => simp [issue_book, hfb] at h
  | some book =>
    by_cases hle : book.available_copies ≤ 0
    · simp [issue_book, hfb, hle] at h
    · cases hst : hasStudent s d.student_id with
      | false => simp [issue_book, hfb, hle, hst] at h
      | true =>
        cases hact : findActiveIssue s d.book_id d.student_id with
        | some j => simp [issue_book, hfb, hle, hst, hact] at h
        | none =>
          simp only [issue_book, hfb, hle, hst, hact, if_false, if_true,
            ite_false, ite_true, Except.ok.injEq, Prod.mk.injEq] at h
          obtain ⟨h1, h2⟩ := h
          subst h1; subst h2
          exact ⟨book, rfl, lt_of_not_le hle, rfl, rfl, rfl, rfl⟩

theorem return_book_ok_cases {s : LibState} {iid : Nat} {now : Time}
    {i : Issue} {s' : LibState} (h : return_book s iid now = .ok (i, s')) :
    ∃ j, findIssue s iid = some j ∧ j.is_returned = false
      ∧ i = { j with is_returned := true, return_date := some now }
      ∧ s' = { s with
          issues := markReturned s.issues iid now
          books := incBookCopies s.books j.book_id } := by
  cases hfi : findIssue s iid with
  | none => simp [return_book, hfi] at h
  | some j =>
    cases hret : j.is_returned with
    | true => simp [return_book, hfi, hret] at h
    | false =>
      simp only [return_book, hfi, hret, if_false, ite_false,
        Bool.false_eq_true, Except.ok.injEq, Prod.mk.injEq] at h
      obtain ⟨h1, h2⟩ := h
      subst h1; subst h2
      exact ⟨j, rfl, hret, rfl, rfl⟩

/-! ## C2 -/

/-- A state in which book 1 exists but is out of copies, and no student
exists. -/
def noStudentNoCopies : LibState :=
  { books := [⟨1, 1, 0⟩], students := [], issues := [], nextIssueId := 0 }

/-- C2 counterexample: issuing book 1 to the nonexistent student 1 while
the book is out of copies fails with the no-copies `Conflict` (400), not
with `NotFound`: the source checks available copies before it checks that
the student exists. -/
theorem issue_book_conflict_shadows_missing_student :
    hasStudent noStudentNoCopies 1 = false
    ∧ issue_book noStudentNoCopies ⟨1, 1, 14⟩ 0 =
        .error (.conflict msgNoCopies) :=
  ⟨by decide, by rfl⟩

/-- C2 (amended): `issue_book` fails with `NotFound` if the book does not
exist; otherwise with `Conflict` if `available_copies ≤ 0`; otherwise with
`NotFound` if the student does not exist; otherwise with `Conflict` if the
student already has an unreturned issue of this book; otherwise it
succeeds, persisting and returning a new unreturned issue with
`due = now + loanDays` — and the schema default of `days_to_return`
(loanDays) is 14. -/
theorem issue_book_contract (s : LibState) (d : IssueCreate) (now : Time) :
    (findBook s d.book_id = none →
        issue_book s d now = .error (.notFound msgBookNotFound))
    ∧ (∀ b, findBook s d.book_id = some b → b.available_copies ≤ 0 →
        issue_book s d now = .error (.conflict msgNoCopies))
    ∧ (∀ b, findBook s d.book_id = some b → 0 < b.available_copies →
        hasStudent s d.student_id = false →
        issue_book s d now = .error (.notFound msgStudentNotFound))
    ∧ (∀ b j, findBook s d.book_id = some b → 0 < b.available_copies →
        hasStudent s d.student_id = true →
        findActiveIssue s d.book_id d.student_id = some j →
        issue_book s d now = .error (.conflict msgAlreadyIssued))
    ∧ (∀ b, findBook s d.book_id = some b → 0 < b.available_copies →
        hasStudent s d.student_id = true →
        findActiveIssue s d.book_id d.student_id = none →
        ∃ i s', issue_book s d now = .ok (i, s')
          ∧ i.due_date = now + d.days_to_return * secondsPerDay
          ∧ i.is_returned = false ∧ i.return_date = none
          ∧ i.book_id = d.book_id ∧ i.student_id = d.student_id
          ∧ i.issue_date = now
          ∧ s'.issues = s.issues ++ [i])
    ∧ (∀ b st : Nat,
        ({ book_id := b, student_id := st } : IssueCreate).days_to_return = 14) := by
  refine ⟨?_, ?_, ?_, ?_, ?_, fun b st => rfl⟩
  · intro h; simp [issue_book, h]
  · intro b hb hle; simp [issue_book, hb, hle]
  · intro b hb hpos hst; simp [issue_book, hb, not_le.mpr hpos, hst]
  · intro b j hb hpos hst hact
    simp [issue_book, hb, not_le.mpr hpos, hst, hact]
  · intro b hb hpos hst hact
    refine ⟨mkIssueRow d now s.nextIssueId,
      { s with
          issues := s.issues ++ [mkIssueRow d now s.nextIssueId]
          books := decBookCopies s.books d.book_id
          nextIssueId := s.nextIssueId + 1 },
      ?_, rfl, rfl, rfl, rfl, rfl, rfl, rfl⟩
    simp [issue_book, hb, not_le.mpr hpos, hst, hact]

/-- A state in which book 1 has one copy and student 7 exists. -/
def issueDemoState : LibState :=
  { books := [⟨1, 1, 1⟩], students := [7], issues := [], nextIssueId := 0 }

/-- Witness for C2: issuing book 1 to student 7 succeeds as specified. -/
theorem issue_book_contract_witness :
    ∃ i s', issue_book issueDemoState ⟨1, 7, 14⟩ 0 = .ok (i, s')
      ∧ i.due_date = 0 + (14 : Int) * secondsPerDay
      ∧ i.is_returned = false ∧ i.return_date = none
      ∧ i.book_id = 1 ∧ i.student_id = 7
      ∧ i.issue_date = 0
      ∧ s'.issues = issueDemoState.issues ++ [i] :=
  (issue_book_contract issueDemoState ⟨1, 7, 14⟩ 0).2.2.2.2.1 ⟨1, 1, 1⟩
    (by decide) (by decide) (by decide) (by decide)

/-! ## C3 -/

/-- C3: `return_book` fails with `NotFound` when no issue with that id
exists; fails with `Conflict` when the issue is already returned, leaving
the state (so `return_date` and copy counts) unchanged; and on success
returns the issue with `returned = true` and `return_date = now`, with the
book's available copies incremented by one. -/
theorem return_book_contract (s : LibState) (iid : Nat) (now : Time) :
    (findIssue s iid = none →
        return_book s iid now = .error (.notFound msgIssueNotFound))
    ∧ (∀ i, findIssue s iid = some i → i.is_returned = true →
        return_book s iid now = .error (.conflict msgAlreadyReturned)
        ∧ returnStep s iid now = s)
    ∧ (∀ i, findIssue s iid = some i → i.is_returned = false →
        ∃ s', return_book s iid now =
            .ok ({ i with is_returned := true, return_date := some now }, s')
          ∧ (∀ b, findBook s i.book_id = some b →
              findBook s' i.book_id =
                some { b with available_copies := b.available_copies + 1 })) := by
  refine ⟨?_, ?_, ?_⟩
  · intro h; simp [return_book, h]
  · intro i hi hret
    refine ⟨by simp [return_book, hi, hret], ?_⟩
    simp [returnStep, return_book, hi, hret]
  · intro i hi hret
    refine ⟨{ s with
        issues := markReturned s.issues iid now
        books := incBookCopies s.books i.book_id }, ?_, ?_⟩
    · simp [return_book, hi, hret]
    · intro b hb
      exact find?_incBookCopies s.books i.book_id hb

/-- A state with one unreturned issue of book 1 by student 7. -/
def returnDemoState : LibState :=
  { books := [⟨1, 2, 1⟩], students := [7],
    issues := [⟨0, 1, 7, 0, 5, none, false, 0, none⟩], nextIssueId := 1 }

/-- Witness for C3: returning the open issue 0 succeeds, sets the returned
flag and timestamp, and increments available copies. -/
theorem return_book_contract_witness :
    ∃ s', return_book returnDemoState 0 99 =
        .ok (⟨0, 1, 7, 0, 5, some 99, true, 0, none⟩, s')
      ∧ (∀ b, findBook returnDemoState 1 = some b →
          findBook s' 1 =
            some { b with available_copies := b.available_copies + 1 }) :=
  (return_book_contract returnDemoState 0 99).2.2
    ⟨0, 1, 7, 0, 5, none, false, 0, none⟩ (by decide) (by decide)

/-! ## C4 -/

/-- C4: atomicity of the façade — a failing `issue_book` or `return_book`
call (every `NotFound`/`Conflict`, including issuing at zero copies)
changes nothing, and a successful call applies the ledger change and the
copy-count change together: a new issue appended with the decrement, or
the returned flag set with the increment. -/
theorem facade_atomicity (s : LibState) :
    (∀ d now e, issue_book s d now = .error e → issueStep s d now = s)
    ∧ (∀ d now i s', issue_book s d now = .ok (i, s') →
        s'.issues = s.issues ++ [i]
        ∧ (∀ b, findBook s d.book_id = some b →
            findBook s' d.book_id =
              some { b with available_copies := b.available_copies - 1 }))
    ∧ (∀ d now b, findBook s d.book_id = some b → b.available_copies = 0 →
        issue_book s d now = .error (.conflict msgNoCopies))
    ∧ (∀ iid now e, return_book s iid now = .error e → returnStep s iid now = s)
    ∧ (∀ iid now i s', return_book s iid now = .ok (i, s') →
        ∃ j, findIssue s iid = some j ∧ j.is_returned = false
          ∧ i = { j with is_returned := true, return_date := some now }
          ∧ s'.issues = markReturned s.issues iid now
          ∧ (∀ b, findBook s j.book_id = some b →
              findBook s' j.book_id =
                some { b with available_copies := b.available_copies + 1 })) := by
  refine ⟨?_, ?_, ?_, ?_, ?_⟩
  · intro d now e h; simp [issueStep, h]
  · intro d now i s' h
    obtain ⟨book, hfb, hpos, hst, hact, hi, hs⟩ := issue_book_ok_cases h
    subst hi; subst hs
    exact ⟨rfl, fun b hb => find?_decBookCopies s.books d.book_id hb⟩
  · intro d now b hb hz; simp [issue_book, hb, hz]
  · intro iid now e h; simp [returnStep, h]
  · intro iid now i s' h
    obtain ⟨j, hfi, hret, hi, hs⟩ := return_book_ok_cases h
    subst hi; subst hs
    exact ⟨j, hfi, hret, rfl, rfl,
      fun b hb => find?_incBookCopies s.books j.book_id hb⟩

/-- Witness for C4: at a zero-copy book the issue call is a `Conflict` and
the state is unchanged; a successful return applies both changes. -/
theorem facade_atomicity_witness :
    issueStep noStudentNoCopies ⟨1, 1, 14⟩ 0 = noStudentNoCopies
    ∧ issue_book noStudentNoCopies ⟨1, 1, 14⟩ 0 =
        .error (.conflict msgNoCopies)
    ∧ (∃ j, findIssue returnDemoState 0 = some j ∧ j.is_returned = false
        ∧ (⟨0, 1, 7, 0, 5, some 99, true, 0, none⟩ : Issue) =
            { j with is_returned := true, return_date := some 99 }
        ∧ (returnStep returnDemoState 0 99).issues =
            markReturned returnDemoState.issues 0 99
        ∧ (∀ b, findBook returnDemoState j.book_id = some b →
            findBook (returnStep returnDemoState 0 99) j.book_id =
              some { b with available_copies := b.available_copies + 1 })) :=
  ⟨(facade_atomicity noStudentNoCopies).1 ⟨1, 1, 14⟩ 0 _ (by rfl),
   (facade_atomicity noStudentNoCopies).2.2.1 ⟨1, 1, 14⟩ 0 ⟨1, 1, 0⟩
     (by decide) (by decide),
   (facade_atomicity returnDemoState).2.2.2.2 0 99
     ⟨0, 1, 7, 0, 5, some 99, true, 0, none⟩ (returnStep returnDemoState 0 99)
     (by rfl)⟩

/-! ## Lemmas about the sweep -/

/-- The cumulative effect of the due-soon loop's per-issue commits when
every dispatch succeeds. -/
def applyNotices (issues ds : List Issue) (now : Time) : List Issue :=
  ds.foldl (fun acc i =>
    if needsNotice i now then markNoticed acc i.id now else acc) issues

theorem processOverdue_all_ok (d : Issue → Bool) (now : Time) (l : List Issue)
    (hd : ∀ i ∈ l, d i = true) :
    processOverdue d now l = (l.map (overdueEvent now), true) := by
  induction l with
  | nil => rfl
  | cons i rest ih =>
    have hi := hd i (List.mem_cons_self i rest)
    have ihr := ih (fun j hj => hd j (List.mem_cons_of_mem i hj))
    simp [processOverdue, hi, ihr]

theorem processOverdue_abort (d : Issue → Bool) (now : Time) (l : List Issue)
    (h : ∃ i ∈ l, d i = false) :
    (processOverdue d now l).2 = false
    ∧ (processOverdue d now l).1.length < l.length := by
  induction l with
  | nil => obtain ⟨i, hi, _⟩ := h; cases hi
  | cons i rest ih =>
    cases hdi : d i with
    | false => simp [processOverdue, hdi]
    | true =>
      have hrest : ∃ j ∈ rest, d j = false := by
        obtain ⟨j, hj, hdj⟩ := h
        rcases List.mem_cons.mp hj with rfl | hj'
        · rw [hdi] at hdj; cases hdj
        · exact ⟨j, hj', hdj⟩
      obtain ⟨h2, hlen⟩ := ih hrest
      simp only [processOverdue, hdi, if_true, List.length_cons]
      exact ⟨h2, by simpa using Nat.succ_lt_succ hlen⟩

theorem processOverdue_category (d : Issue → Bool) (now : Time) (l : List Issue) :
    ∀ e ∈ (processOverdue d now l).1, e.category = Category.overdue := by
  induction l with
  | nil => intro e he; cases he
  | cons i rest ih =>
    intro e he
    cases hdi : d i with
    | false => exact absurd he (by simp [processOverdue, hdi])
    | true =>
      simp only [processOverdue, hdi, if_true] at he
      rcases List.mem_cons.mp he with rfl | he'
      · rfl
      · exact ih e he'

theorem processDueSoon_all_ok (d : Issue → Bool) (now : Time)
    (hd : ∀ i, d i = true) :
    ∀ (ds issues : List Issue),
      processDueSoon d now issues ds =
        ((ds.filter (fun i => needsNotice i now)).map dueSoonEvent,
         applyNotices issues ds now, true) := by
  intro ds
  induction ds with
  | nil => intro issues; simp [processDueSoon, applyNotices]
  | cons i rest ih =>
    intro issues
    cases hn : needsNotice i now with
    | true =>
      simp [processDueSoon, hn, hd i, ih, applyNotices, List.filter_cons,
        List.foldl_cons]
    | false =>
      simp [processDueSoon, hn, ih, applyNotices, List.filter_cons,
        List.foldl_cons]

/-- The whole sweep when every dispatch succeeds. -/
theorem check_overdue_books_all_ok (s : LibState) (now : Time)
    (d : Issue → Bool) (hd : ∀ i, d i = true) :
    check_overdue_books s d now =
      { tasks := (get_overdue_books s now).map (overdueEvent now) ++
          ((get_books_due_soon s now 5).filter
            (fun i => needsNotice i now)).map dueSoonEvent,
        sent := (get_overdue_books s now).map (overdueEvent now) ++
          ((get_books_due_soon s now 5).filter
            (fun i => needsNotice i now)).map dueSoonEvent,
        state := { s with
          issues := applyNotices s.issues (get_books_due_soon s now 5) now },
        completed := true } := by
  have hov := processOverdue_all_ok d now (get_overdue_books s now)
    (fun i _ => hd i)
  have hds := processDueSoon_all_ok d now hd (get_books_due_soon s now 5) s.issues
  simp [check_overdue_books, hov, hds]

/-! ## C7 -/

/-- C7: with working dispatch, every sweep run queues an overdue
notification for every overdue issue unconditionally — the overdue-category
events are exactly one per overdue issue, `last_notice_sent` never
consulted — with `daysOverdue = floor((now - due) / 1 day)`. -/
theorem overdue_always_renotified (s : LibState) (now : Time)
    (d : Issue → Bool) (hd : ∀ i, d i = true) :
    ((check_overdue_books s d now).tasks.filter
        (fun e => e.category == Category.overdue)) =
      (get_overdue_books s now).map (fun i =>
        { issue_id := i.id, category := Category.overdue,
          days_overdue := Int.fdiv (now - i.due_date) secondsPerDay })
    ∧ (∀ i ∈ get_overdue_books s now,
        overdueEvent now i ∈ (check_overdue_books s d now).tasks) := by
  rw [check_overdue_books_all_ok s now d hd]
  constructor
  · rw [List.filter_append]
    have h1 : ((get_overdue_books s now).map (overdueEvent now)).filter
        (fun e => e.category == Category.overdue) =
        (get_overdue_books s now).map (overdueEvent now) := by
      apply List.filter_eq_self.mpr
      intro e he
      obtain ⟨i, _, rfl⟩ := List.mem_map.mp he
      rfl
    have h2 : (((get_books_due_soon s now 5).filter
        (fun i => needsNotice i now)).map dueSoonEvent).filter
        (fun e => e.category == Category.overdue) = [] := by
      apply List.filter_eq_nil_iff.mpr
      intro e he
      obtain ⟨i, _, rfl⟩ := List.mem_map.mp he
      simp [dueSoonEvent]
    rw [h1, h2, List.append_nil]
    rfl
  · intro i hi
    exact List.mem_append_left _ (List.mem_map.mpr ⟨i, hi, rfl⟩)

/-- An overdue issue whose notice was sent one hour ago (time 0 = now). -/
def overdueRecentNotice : Issue := ⟨1, 1, 7, 0, -86400, none, false, 0, some (-3600)⟩

/-- A ledger with only that issue. -/
def overdueNoticeState : LibState :=
  { books := [], students := [], issues := [overdueRecentNotice], nextIssueId := 2 }

/-- The always-succeeding dispatch function. -/
def dispatchOk : Issue → Bool := fun _ => true

/-- Witness for C7: an overdue issue notified one hour ago is re-notified
anyway, with `daysOverdue = 1`. -/
theorem overdue_always_renotified_witness :
    ((check_overdue_books overdueNoticeState dispatchOk 0).tasks.filter
        (fun e => e.category == Category.overdue)) =
      [{ issue_id := 1, category := Category.overdue, days_overdue := 1 }]
    ∧ overdueEvent 0 overdueRecentNotice ∈
        (check_overdue_books overdueNoticeState dispatchOk 0).tasks := by
  have h := overdue_always_renotified overdueNoticeState 0 dispatchOk
    (fun _ => rfl)
  refine ⟨?_, h.2 overdueRecentNotice (by decide)⟩
  rw [h.1]; decide

/-! ## C8 -/

/-- C8 (amended): a dispatch failure during the overdue loop aborts the
rest of the run — strictly fewer notifications are queued than there are
overdue issues, the due-soon loop never runs and the state is untouched,
and none of the queued notifications is actually sent — but the exception
is caught at the run boundary: the sweep still yields a result
(`completed = false`) instead of propagating. -/
theorem sweep_abort_on_dispatch_failure (s : LibState) (now : Time)
    (d : Issue → Bool) (h : ∃ i ∈ get_overdue_books s now, d i = false) :
    (check_overdue_books s d now).completed = false
    ∧ (check_overdue_books s d now).sent = []
    ∧ (check_overdue_books s d now).state = s
    ∧ (check_overdue_books s d now).tasks.length <
        (get_overdue_books s now).length
    ∧ (∀ e ∈ (check_overdue_books s d now).tasks,
        e.category = Category.overdue) := by
  obtain ⟨h2, hlen⟩ := processOverdue_abort d now (get_overdue_books s now) h
  have hc : check_overdue_books s d now =
      { tasks := (processOverdue d now (get_overdue_books s now)).1,
        sent := [], state := s, completed := false } := by
    simp [check_overdue_books, h2]
  rw [hc]
  exact ⟨rfl, rfl, rfl, hlen,
    fun e he => processOverdue_category d now (get_overdue_books s now) e he⟩

/-- The most-overdue issue: its dispatch will fail. -/
def overdueA : Issue := ⟨1, 1, 7, 0, -2 * 86400, none, false, 0, none⟩

/-- A later overdue issue: its dispatch would succeed. -/
def overdueB : Issue := ⟨2, 1, 8, 0, -86400, none, false, 0, none⟩

/-- A ledger holding the two overdue issues. -/
def twoOverdueState : LibState :=
  { books := [], students := [], issues := [overdueA, overdueB], nextIssueId := 3 }

/-- Dispatch that raises exactly for issue 1 (`overdueA`). -/
def failFirstDispatch : Issue → Bool := fun i => !(i.id == 1)

/-- C8 counterexample: both issues are overdue and dispatch for the second
works, yet after the first dispatch fails the run queues nothing at all —
the remaining issue of the run is not processed, contradicting per-issue
failure isolation. -/
theorem sweep_failure_skips_remaining :
    get_overdue_books twoOverdueState 0 = [overdueA, overdueB]
    ∧ failFirstDispatch overdueB = true
    ∧ (check_overdue_books twoOverdueState failFirstDispatch 0).tasks = [] :=
  ⟨by decide, by decide, by decide⟩

/-- Witness for C8's amended statement at the two-issue state. -/
theorem sweep_abort_on_dispatch_failure_witness :
    (check_overdue_books twoOverdueState failFirstDispatch 0).completed = false
    ∧ (check_overdue_books twoOverdueState failFirstDispatch 0).sent = []
    ∧ (check_overdue_books twoOverdueState failFirstDispatch 0).state =
        twoOverdueState
    ∧ (check_overdue_books twoOverdueState failFirstDispatch 0).tasks.length <
        (get_overdue_books twoOverdueState 0).length
    ∧ (∀ e ∈ (check_overdue_books twoOverdueState failFirstDispatch 0).tasks,
        e.category = Category.overdue) :=
  sweep_abort_on_dispatch_failure twoOverdueState 0 failFirstDispatch
    ⟨overdueA, by decide, by decide⟩

/-! ## Lemmas about primary-key lookups through the due-soon commits -/

theorem applyNotices_cons (issues : List Issue) (k : Issue) (rest : List Issue)
    (now : Time) :
    applyNotices issues (k :: rest) now =
      applyNotices
        (if needsNotice k now then markNoticed issues k.id now else issues)
        rest now := rfl

theorem find?_markNoticed_self (l : List Issue) (iid : Nat) (t : Time) :
    (markNoticed l iid t).find? (fun j => j.id == iid) =
      (l.find? (fun j => j.id == iid)).map
        (fun j => { j with last_notice_sent := some t }) := by
  induction l with
  | nil => rfl
  | cons j rest ih =>
    by_cases hj : j.id = iid
    · simp [markNoticed, hj]
    · simp [markNoticed, hj, ih]

theorem find?_markNoticed_other (l : List Issue) (iid bid : Nat) (t : Time)
    (h : bid ≠ iid) :
    (markNoticed l iid t).find? (fun j => j.id == bid) =
      l.find? (fun j => j.id == bid) := by
  induction l with
  | nil => rfl
  | cons j rest ih =>
    by_cases hj : j.id = iid
    · have hjb : ¬(j.id = bid) := by rw [hj]; exact fun hh => h hh.symm
      rw [show markNoticed (j :: rest) iid t =
            { j with last_notice_sent := some t } :: rest from by
          simp [markNoticed, hj]]
      rw [List.find?_cons_of_neg _ (by simp [hjb]),
        List.find?_cons_of_neg _ (by simp [hjb])]
    · rw [show markNoticed (j :: rest) iid t = j :: markNoticed rest iid t from
          by simp [markNoticed, hj]]
      by_cases hb : j.id = bid
      · rw [List.find?_cons_of_pos _ (by simp [hb]),
          List.find?_cons_of_pos _ (by simp [hb])]
      · rw [List.find?_cons_of_neg _ (by simp [hb]),
          List.find?_cons_of_neg _ (by simp [hb])]
        exact ih

theorem find?_applyNotices_not_mem (issues ds : List Issue) (now : Time)
    (bid : Nat) (h : ∀ j ∈ ds, j.id ≠ bid) :
    (applyNotices issues ds now).find? (fun j => j.id == bid) =
      issues.find? (fun j => j.id == bid) := by
  induction ds generalizing issues with
  | nil => rfl
  | cons k rest ih =>
    have hk : k.id ≠ bid := h k (List.mem_cons_self k rest)
    have hrest : ∀ j ∈ rest, j.id ≠ bid :=
      fun j hj => h j (List.mem_cons_of_mem k hj)
    rw [applyNotices_cons]
    by_cases hn : needsNotice k now = true
    · rw [if_pos hn, ih (markNoticed issues k.id now) hrest]
      exact find?_markNoticed_other issues k.id bid now (Ne.symm hk)
    · rw [if_neg hn, ih issues hrest]

theorem find?_applyNotices_mem (issues ds : List Issue) (now : Time)
    (hnd : (ds.map Issue.id).Nodup) (i : Issue) (hi : i ∈ ds) :
    (applyNotices issues ds now).find? (fun j => j.id == i.id) =
      if needsNotice i now then
        (issues.find? (fun j => j.id == i.id)).map
          (fun j => { j with last_notice_sent := some now })
      else issues.find? (fun j => j.id == i.id) := by
  induction ds generalizing issues with
  | nil => cases hi
  | cons k rest ih =>
    rw [applyNotices_cons]
    have hnd' : (rest.map Issue.id).Nodup := by
      simpa using (List.nodup_cons.mp (by simpa using hnd)).2
    rcases List.mem_cons.mp hi with rfl | hi'
    · have hrest : ∀ j ∈ rest, j.id ≠ i.id := by
        intro j hj heq
        have hni : i.id ∉ rest.map Issue.id :=
          (List.nodup_cons.mp (by simpa using hnd)).1
        exact hni (heq ▸ List.mem_map.mpr ⟨j, hj, rfl⟩)
      by_cases hn : needsNotice i now = true
      · rw [if_pos hn, if_pos hn,
          find?_applyNotices_not_mem (markNoticed issues i.id now) rest now i.id
            hrest]
        exact find?_markNoticed_self issues i.id now
      · rw [if_neg hn, if_neg hn,
          find?_applyNotices_not_mem issues rest now i.id hrest]
    · have hk : k.id ≠ i.id := by
        intro heq
        have hni : k.id ∉ rest.map Issue.id :=
          (List.nodup_cons.mp (by simpa using hnd)).1
        exact hni (heq ▸ List.mem_map.mpr ⟨i, hi', rfl⟩)
      by_cases hn : needsNotice k now = true
      · rw [if_pos hn, ih (markNoticed issues k.id now) hnd' hi',
          find?_markNoticed_other issues k.id i.id now (Ne.symm hk)]
      · rw [if_neg hn, ih issues hnd' hi']

theorem find?_id_of_nodup (l : List Issue) (hnd : (l.map Issue.id).Nodup)
    {i : Issue} (hi : i ∈ l) :
    l.find? (fun j => j.id == i.id) = some i := by
  induction l with
  | nil => cases hi
  | cons k rest ih =>
    rcases List.mem_cons.mp hi with rfl | hi'
    · simp
    · have hk : k.id ≠ i.id := by
        intro heq
        have hni : k.id ∉ rest.map Issue.id :=
          (List.nodup_cons.mp (by simpa using hnd)).1
        exact hni (heq ▸ List.mem_map.mpr ⟨i, hi', rfl⟩)
      rw [List.find?_cons_of_neg _ (by simp [hk])]
      exact ih (by simpa using (List.nodup_cons.mp (by simpa using hnd)).2) hi'

theorem nodup_ids_sortByDue_filter (l : List Issue) (p : Issue → Bool)
    (h : (l.map Issue.id).Nodup) :
    ((sortByDue (l.filter p)).map Issue.id).Nodup := by
  have hperm : (sortByDue (l.filter p)).Perm (l.filter p) :=
    List.perm_insertionSort dueLE (l.filter p)
  have hfil : ((l.filter p).map Issue.id).Nodup :=
    h.sublist (List.Sublist.map Issue.id (List.filter_sublist l))
  exact ((hperm.map Issue.id).nodup_iff).mpr hfil

/-! ## C6 -/

/-- C6: in a sweep run with working dispatch (and distinct issue primary
keys), a due-soon issue is notified exactly when `last_notice_sent` is
unset or more than one day old; after dispatch the issue's
`last_notice_sent` is set to `now`, and a skipped issue's row is
untouched. -/
theorem due_soon_cooldown_dedup (s : LibState) (now : Time)
    (d : Issue → Bool) (hd : ∀ i, d i = true)
    (hids : (s.issues.map Issue.id).Nodup) :
    (∀ i ∈ get_books_due_soon s now 5,
        (dueSoonEvent i ∈ (check_overdue_books s d now).tasks ↔
          needsNotice i now = true))
    ∧ (∀ i ∈ get_books_due_soon s now 5, needsNotice i now = true →
        findIssue (check_overdue_books s d now).state i.id =
          some { i with last_notice_sent := some now })
    ∧ (∀ i ∈ get_books_due_soon s now 5, needsNotice i now = false →
        findIssue (check_overdue_books s d now).state i.id = some i) := by
  have hnds : ((get_books_due_soon s now 5).map Issue.id).Nodup :=
    nodup_ids_sortByDue_filter s.issues _ hids
  rw [check_overdue_books_all_ok s now d hd]
  refine ⟨?_, ?_, ?_⟩
  · intro i hi
    constructor
    · intro hmem
      rcases List.mem_append.mp hmem with hov | hds
      · obtain ⟨j, _, hje⟩ := List.mem_map.mp hov
        exact absurd (congrArg NotifEvent.category hje)
          (by simp [overdueEvent, dueSoonEvent])
      · obtain ⟨j, hjf, hje⟩ := List.mem_map.mp hds
        have hjid : j.id = i.id := congrArg NotifEvent.issue_id hje
        have hj_ds : j ∈ get_books_due_soon s now 5 :=
          (List.mem_filter.mp hjf).1
        have hji : j = i :=
          List.inj_on_of_nodup_map hnds hj_ds hi hjid
        exact hji ▸ (List.mem_filter.mp hjf).2
    · intro hneeds
      exact List.mem_append_right _
        (List.mem_map.mpr ⟨i, List.mem_filter.mpr ⟨hi, hneeds⟩, rfl⟩)
  · intro i hi hneeds
    have hmem : i ∈ s.issues := (mem_get_books_due_soon.mp hi).1
    show (applyNotices s.issues (get_books_due_soon s now 5) now).find?
        (fun j => j.id == i.id) = _
    rw [find?_applyNotices_mem s.issues _ now hnds i hi, if_pos hneeds,
      find?_id_of_nodup s.issues hids hmem]
    rfl
  · intro i hi hneeds
    have hmem : i ∈ s.issues := (mem_get_books_due_soon.mp hi).1
    show (applyNotices s.issues (get_books_due_soon s now 5) now).find?
        (fun j => j.id == i.id) = _
    rw [find?_applyNotices_mem s.issues _ now hnds i hi,
      if_neg (by simp [hneeds]), find?_id_of_nodup s.issues hids hmem]

/-- A due-soon issue whose notice went out two hours before `now = 0`. -/
def dueSoonRecent : Issue := ⟨1, 1, 7, 0, 3 * 86400, none, false, 0, some (-7200)⟩

/-- A due-soon issue whose notice went out 26 hours before `now = 0`. -/
def dueSoonStale : Issue := ⟨2, 1, 8, 0, 4 * 86400, none, false, 0, some (-93600)⟩

/-- A ledger with exactly those two issues. -/
def cooldownState : LibState :=
  { books := [], students := [], issues := [dueSoonRecent, dueSoonStale],
    nextIssueId := 3 }

/-- Witness for C6: of two due-soon issues noticed 2h and 26h ago, only the
second is re-notified, and only its `last_notice_sent` moves to `now`. -/
theorem due_soon_cooldown_dedup_witness :
    dueSoonEvent dueSoonStale ∈
        (check_overdue_books cooldownState dispatchOk 0).tasks
    ∧ dueSoonEvent dueSoonRecent ∉
        (check_overdue_books cooldownState dispatchOk 0).tasks
    ∧ findIssue (check_overdue_books cooldownState dispatchOk 0).state 2 =
        some { dueSoonStale with last_notice_sent := some 0 }
    ∧ findIssue (check_overdue_books cooldownState dispatchOk 0).state 1 =
        some dueSoonRecent := by
  have h := due_soon_cooldown_dedup cooldownState 0 dispatchOk (fun _ => rfl)
    (by decide)
  refine ⟨(h.1 dueSoonStale (by decide)).mpr (by decide), ?_, ?_, ?_⟩
  · intro hm
    have := (h.1 dueSoonRecent (by decide)).mp hm
    exact absurd this (by decide)
  · exact h.2.1 dueSoonStale (by decide) (by decide)
  · exact h.2.2 dueSoonRecent (by decide) (by decide)

/-! ## Lemmas for the copy-count invariant -/

theorem book_eq_of_pairwise {books : List Book}
    (hpw : books.Pairwise (fun a b => a.id ≠ b.id)) {b c : Book}
    (hb : b ∈ books) (hc : c ∈ books) (hid : b.id = c.id) : b = c := by
  induction books with
  | nil => cases hb
  | cons x rest ih =>
    obtain ⟨hx, hrest⟩ := List.pairwise_cons.mp hpw
    rcases List.mem_cons.mp hb with rfl | hb'
    · rcases List.mem_cons.mp hc with rfl | hc'
      · rfl
      · exact absurd hid (hx c hc')
    · rcases List.mem_cons.mp hc with rfl | hc'
      · exact absurd hid.symm (hx b hb')
      · exact ih hrest hb' hc'

theorem unreturnedCount_append (l1 l2 : List Issue) (bid : Nat) :
    unreturnedCount (l1 ++ l2) bid =
      unreturnedCount l1 bid + unreturnedCount l2 bid := by
  unfold unreturnedCount
  rw [List.filter_append, List.length_append]

theorem unreturnedCount_markReturned (l : List Issue) (iid : Nat) (now : Time)
    {i : Issue} (hf : l.find? (fun j => j.id == iid) = some i)
    (hret : i.is_returned = false) (bid : Nat) :
    unreturnedCount l bid =
      unreturnedCount (markReturned l iid now) bid +
        (if i.book_id = bid then 1 else 0) := by
  induction l with
  | nil => cases hf
  | cons j rest ih =>
    by_cases hj : j.id = iid
    · have hij : j = i := by
        rw [List.find?_cons_of_pos _ (by simp [hj])] at hf
        exact Option.some.inj hf
      subst hij
      rw [show markReturned (j :: rest) iid now =
          { j with is_returned := true, return_date := some now } :: rest from
        by simp [markReturned, hj]]
      unfold unreturnedCount
      rw [List.filter_cons, List.filter_cons]
      by_cases hbid : j.book_id = bid
      · simp [hbid, hret]
      · simp [hbid, hret]
    · rw [List.find?_cons_of_neg _ (by simp [hj])] at hf
      rw [show markReturned (j :: rest) iid now =
          j :: markReturned rest iid now from by simp [markReturned, hj]]
      have hrec := ih hf
      unfold unreturnedCount at hrec ⊢
      rw [List.filter_cons, List.filter_cons]
      by_cases hbj : (j.book_id == bid && !j.is_returned) = true
      · simp only [hbj, if_true, List.length_cons]
        omega
      · simp only [hbj, if_false, Bool.false_eq_true]
        omega

theorem pairFree_returned_fst (x y : Issue) (now : Time) :
    PairFree { y with is_returned := true, return_date := some now } x := by
  simp [PairFree]

theorem pairFree_returned_snd (x y : Issue) (now : Time) :
    PairFree x { y with is_returned := true, return_date := some now } := by
  simp [PairFree]

theorem mem_markReturned {l : List Issue} {iid : Nat} {now : Time} {x : Issue}
    (hx : x ∈ markReturned l iid now) :
    x ∈ l ∨ ∃ y, y ∈ l ∧
      x = { y with is_returned := true, return_date := some now } := by
  induction l with
  | nil => cases hx
  | cons j rest ih =>
    by_cases hj : j.id = iid
    · rw [show markReturned (j :: rest) iid now =
          { j with is_returned := true, return_date := some now } :: rest from
        by simp [markReturned, hj]] at hx
      rcases List.mem_cons.mp hx with rfl | hx'
      · exact Or.inr ⟨j, List.mem_cons_self j rest, rfl⟩
      · exact Or.inl (List.mem_cons_of_mem j hx')
    · rw [show markReturned (j :: rest) iid now =
          j :: markReturned rest iid now from by simp [markReturned, hj]] at hx
      rcases List.mem_cons.mp hx with rfl | hx'
      · exact Or.inl (List.mem_cons_self x rest)
      · rcases ih hx' with hmem | ⟨y, hy, hxy⟩
        · exact Or.inl (List.mem_cons_of_mem j hmem)
        · exact Or.inr ⟨y, List.mem_cons_of_mem j hy, hxy⟩

theorem pairwise_markReturned {l : List Issue} (iid : Nat) (now : Time)
    (h : l.Pairwise PairFree) : (markReturned l iid now).Pairwise PairFree := by
  induction l with
  | nil => exact h
  | cons j rest ih =>
    obtain ⟨hj_all, hrest⟩ := List.pairwise_cons.mp h
    by_cases hj : j.id = iid
    · rw [show markReturned (j :: rest) iid now =
          { j with is_returned := true, return_date := some now } :: rest from
        by simp [markReturned, hj]]
      exact List.pairwise_cons.mpr
        ⟨fun x _ => pairFree_returned_fst x j now, hrest⟩
    · rw [show markReturned (j :: rest) iid now =
          j :: markReturned rest iid now from by simp [markReturned, hj]]
      refine List.pairwise_cons.mpr ⟨?_, ih hrest⟩
      intro x hx
      rcases mem_markReturned hx with hmem | ⟨y, hy, rfl⟩
      · exact hj_all x hmem
      · exact pairFree_returned_snd j y now

theorem pairwise_id_decBookCopies {books : List Book} (bid : Nat)
    (hpw : books.Pairwise (fun a b => a.id ≠ b.id)) :
    (decBookCopies books bid).Pairwise (fun a b => a.id ≠ b.id) := by
  unfold decBookCopies
  refine List.Pairwise.map _ ?_ hpw
  intro a b hab
  by_cases ha : a.id = bid <;> by_cases hb : b.id = bid <;> simpa [ha, hb] using hab

theorem pairwise_id_incBookCopies {books : List Book} (bid : Nat)
    (hpw : books.Pairwise (fun a b => a.id ≠ b.id)) :
    (incBookCopies books bid).Pairwise (fun a b => a.id ≠ b.id) := by
  unfold incBookCopies
  refine List.Pairwise.map _ ?_ hpw
  intro a b hab
  by_cases ha : a.id = bid <;> by_cases hb : b.id = bid <;> simpa [ha, hb] using hab

theorem consistent_issueStep (s : LibState) (d : IssueCreate) (now : Time)
    (h : ConsistentState s) : ConsistentState (issueStep s d now) := by
  obtain ⟨hpw, hbooks, hpair⟩ := h
  cases hres : issue_book s d now with
  | error e =>
    simpa [issueStep, hres] using
      (⟨hpw, hbooks, hpair⟩ : ConsistentState s)
  | ok r =>
    obtain ⟨i, s'⟩ := r
    obtain ⟨book, hfb, hpos, hst, hact, hi, hs⟩ := issue_book_ok_cases hres
    subst hi; subst hs
    have hgoal : issueStep s d now =
        { s with
            issues := s.issues ++ [mkIssueRow d now s.nextIssueId]
            books := decBookCopies s.books d.book_id
            nextIssueId := s.nextIssueId + 1 } := by
      simp [issueStep, hres]
    rw [hgoal]
    have hbookmem : book ∈ s.books := List.mem_of_find?_eq_some hfb
    have hbookid : book.id = d.book_id := by simpa using List.find?_some hfb
    refine ⟨pairwise_id_decBookCopies d.book_id hpw, ?_, ?_⟩
    · intro b' hb'
      obtain ⟨b, hbmem, rfl⟩ := List.mem_map.mp hb'
      obtain ⟨he, h0, hT⟩ := hbooks b hbmem
      by_cases hbid : b.id = d.book_id
      · have hbeq : b = book :=
          book_eq_of_pairwise hpw hbmem hbookmem (by rw [hbid, hbookid])
        have hcnt : unreturnedCount
            (s.issues ++ [mkIssueRow d now s.nextIssueId]) b.id =
            unreturnedCount s.issues b.id + 1 := by
          rw [unreturnedCount_append]
          simp [unreturnedCount, mkIssueRow, hbid]
        have hposb : 0 < b.available_copies := by rw [hbeq]; exact hpos
        rw [if_pos (show (b.id == d.book_id) = true by simp [hbid])]
        dsimp only
        rw [hcnt]
        refine ⟨?_, ?_, ?_⟩ <;> push_cast <;> omega
      · have hcnt : unreturnedCount
            (s.issues ++ [mkIssueRow d now s.nextIssueId]) b.id =
            unreturnedCount s.issues b.id := by
          rw [unreturnedCount_append]
          have hbid2 : ¬(d.book_id = b.id) := fun hh => hbid hh.symm
          simp [unreturnedCount, mkIssueRow, hbid2]
        rw [if_neg (show ¬(b.id == d.book_id) = true by simp [hbid])]
        dsimp only
        rw [hcnt]
        exact ⟨he, h0, hT⟩
    · rw [List.pairwise_append]
      refine ⟨hpair, List.pairwise_singleton _ _, ?_⟩
      intro x hx y hy
      rw [List.mem_singleton.mp hy]
      intro hcontra
      obtain ⟨hb1, hs1, hr1, _⟩ := hcontra
      have hb1' : x.book_id = d.book_id := by simpa [mkIssueRow] using hb1
      have hs1' : x.student_id = d.student_id := by simpa [mkIssueRow] using hs1
      have hnone := List.find?_eq_none.mp
        (by simpa [findActiveIssue] using hact) x hx
      exact hnone (by simp [activeFor, hb1', hs1', hr1])

theorem consistent_returnStep (s : LibState) (iid : Nat) (now : Time)
    (h : ConsistentState s) : ConsistentState (returnStep s iid now) := by
  obtain ⟨hpw, hbooks, hpair⟩ := h
  cases hres : return_book s iid now with
  | error e =>
    simpa [returnStep, hres] using
      (⟨hpw, hbooks, hpair⟩ : ConsistentState s)
  | ok r =>
    obtain ⟨i, s'⟩ := r
    obtain ⟨j, hfi, hret, hi, hs⟩ := return_book_ok_cases hres
    subst hi; subst hs
    have hgoal : returnStep s iid now =
        { s with
            issues := markReturned s.issues iid now
            books := incBookCopies s.books j.book_id } := by
      simp [returnStep, hres]
    rw [hgoal]
    have hfj : s.issues.find? (fun x => x.id == iid) = some j := by
      simpa [findIssue] using hfi
    refine ⟨pairwise_id_incBookCopies j.book_id hpw, ?_, ?_⟩
    · intro b' hb'
      obtain ⟨b, hbmem, rfl⟩ := List.mem_map.mp hb'
      obtain ⟨he, h0, hT⟩ := hbooks b hbmem
      have hcnt := unreturnedCount_markReturned s.issues iid now hfj hret b.id
      by_cases hbid : b.id = j.book_id
      · rw [if_pos hbid.symm] at hcnt
        rw [if_pos (show (b.id == j.book_id) = true by simp [hbid])]
        dsimp only
        refine ⟨?_, ?_, ?_⟩ <;> push_cast at hcnt he ⊢ <;> omega
      · rw [if_neg (fun hh => hbid hh.symm), Nat.add_zero] at hcnt
        rw [if_neg (show ¬(b.id == j.book_id) = true by simp [hbid])]
        dsimp only
        rw [← hcnt]
        exact ⟨he, h0, hT⟩
    · exact pairwise_markReturned iid now hpair

theorem applyOp_consistent (s : LibState) (op : Op) (h : ConsistentState s) :
    ConsistentState (applyOp s op) := by
  cases op with
  | issue d now => exact consistent_issueStep s d now h
  | ret iid now => exact consistent_returnStep s iid now h

/-! ## C1 -/

/-- C1: from any consistent state, every sequence of issue/return requests
(failed requests change nothing) preserves consistency: each book's
`available_copies` stays equal to `total_copies` minus its unreturned-issue
count and within `[0, total_copies]`, and no (book, student) pair ever has
two unreturned issues. -/
theorem facade_preserves_consistency (s : LibState) (ops : List Op)
    (h : ConsistentState s) : ConsistentState (runOps s ops) := by
  induction ops generalizing s with
  | nil => exact h
  | cons op rest ih => exact ih (applyOp s op) (applyOp_consistent s op h)

/-- Witness for C1: the spec's §8 scenario — issue the single copy to
student 7, fail to issue it to student 8, return it, issue it to 8 — run
from the one-copy state, ends consistent. -/
theorem facade_preserves_consistency_witness :
    ConsistentState lastCopyState
    ∧ ConsistentState (runOps lastCopyState
        [Op.issue ⟨1, 7, 14⟩ 0, Op.issue ⟨1, 8, 14⟩ 3600, Op.ret 0 7200,
         Op.issue ⟨1, 8, 14⟩ 9000]) :=
  ⟨by decide, facade_preserves_consistency lastCopyState
    [Op.issue ⟨1, 7, 14⟩ 0, Op.issue ⟨1, 8, 14⟩ 3600, Op.ret 0 7200,
     Op.issue ⟨1, 8, 14⟩ 9000] (by decide)⟩

/-! ## Lemmas for the overdue-notice-count frame property -/

/-- Every issue row carries a zero `overdue_notices_sent`. -/
def NoticesZero (issues : List Issue) : Prop :=
  ∀ i ∈ issues, i.overdue_notices_sent = 0

theorem noticesZero_markNoticed (l : List Issue) (iid : Nat) (t : Time)
    (h : NoticesZero l) : NoticesZero (markNoticed l iid t) := by
  induction l with
  | nil => intro i hi; cases hi
  | cons j rest ih =>
    intro i hi
    by_cases hj : j.id = iid
    · rw [show markNoticed (j :: rest) iid t =
          { j with last_notice_sent := some t } :: rest from by
        simp [markNoticed, hj]] at hi
      rcases List.mem_cons.mp hi with rfl | hi'
      · exact h j (List.mem_cons_self j rest)
      · exact h i (List.mem_cons_of_mem j hi')
    · rw [show markNoticed (j :: rest) iid t =
          j :: markNoticed rest iid t from by simp [markNoticed, hj]] at hi
      rcases List.mem_cons.mp hi with rfl | hi'
      · exact h i (List.mem_cons_self i rest)
      · exact ih (fun x hx => h x (List.mem_cons_of_mem j hx)) i hi'

theorem noticesZero_markReturned (l : List Issue) (iid : Nat) (now : Time)
    (h : NoticesZero l) : NoticesZero (markReturned l iid now) := by
  intro i hi
  rcases mem_markReturned hi with hmem | ⟨y, hy, rfl⟩
  · exact h i hmem
  · exact h y hy

theorem noticesZero_processDueSoon (d : Issue → Bool) (now : Time)
    (ds : List Issue) :
    ∀ issues : List Issue, NoticesZero issues →
      NoticesZero (processDueSoon d now issues ds).2.1 := by
  induction ds with
  | nil => intro issues h; exact h
  | cons i rest ih =>
    intro issues h
    by_cases hn : needsNotice i now = true
    · by_cases hdi : d i = true
      · have hrec := ih (markNoticed issues i.id now)
          (noticesZero_markNoticed issues i.id now h)
        simpa [processDueSoon, hn, hdi] using hrec
      · simpa [processDueSoon, hn, hdi] using h
    · simpa [processDueSoon, hn] using ih issues h

theorem noticesZero_applyFullOp (s : LibState) (op : FullOp)
    (h : NoticesZero s.issues) : NoticesZero (applyFullOp s op).issues := by
  cases op with
  | issue d now =>
    cases hres : issue_book s d now with
    | error e => simpa [applyFullOp, issueStep, hres] using h
    | ok r =>
      obtain ⟨i, s'⟩ := r
      obtain ⟨book, _, _, _, _, hi, hs⟩ := issue_book_ok_cases hres
      subst hi; subst hs
      have heq : (applyFullOp s (FullOp.issue d now)).issues =
          s.issues ++ [mkIssueRow d now s.nextIssueId] := by
        simp [applyFullOp, issueStep, hres]
      intro x hx
      rw [heq] at hx
      rcases List.mem_append.mp hx with hmem | hmem
      · exact h x hmem
      · rw [List.mem_singleton.mp hmem]; rfl
  | ret iid now =>
    cases hres : return_book s iid now with
    | error e => simpa [applyFullOp, returnStep, hres] using h
    | ok r =>
      obtain ⟨i, s'⟩ := r
      obtain ⟨j, _, _, hi, hs⟩ := return_book_ok_cases hres
      subst hi; subst hs
      have heq : (applyFullOp s (FullOp.ret iid now)).issues =
          markReturned s.issues iid now := by
        simp [applyFullOp, returnStep, hres]
      intro x hx
      rw [heq] at hx
      exact noticesZero_markReturned s.issues iid now h x hx
  | sweep d now =>
    by_cases hov : (processOverdue d now (get_overdue_books s now)).2 = true
    · by_cases hds :
        (processDueSoon d now s.issues (get_books_due_soon s now 5)).2.2 = true
      · have heq : (applyFullOp s (FullOp.sweep d now)).issues =
            (processDueSoon d now s.issues (get_books_due_soon s now 5)).2.1 := by
          simp [applyFullOp, check_overdue_books, hov, hds]
        rw [heq]
        exact noticesZero_processDueSoon d now (get_books_due_soon s now 5)
          s.issues h
      · have heq : (applyFullOp s (FullOp.sweep d now)).issues =
            (processDueSoon d now s.issues (get_books_due_soon s now 5)).2.1 := by
          simp [applyFullOp, check_overdue_books, hov, hds]
        rw [heq]
        exact noticesZero_processDueSoon d now (get_books_due_soon s now 5)
          s.issues h
    · have heq : (applyFullOp s (FullOp.sweep d now)).issues = s.issues := by
        simp [applyFullOp, check_overdue_books, hov]
      rw [heq]
      exact h
  | notice iid t =>
    have heq : (applyFullOp s (FullOp.notice iid t)).issues =
        s.issues.map (fun i =>
          if i.id == iid then { i with last_notice_sent := some t } else i) :=
      rfl
    intro x hx
    rw [heq] at hx
    rcases List.mem_map.mp hx with ⟨y, hy, rfl⟩
    by_cases hyi : (y.id == iid) = true
    · rw [if_pos hyi]; exact h y hy
    · rw [if_neg hyi]; exact h y hy

/-! ## C10 -/

/-- C10: no core operation — issue, return, a sweep run (whatever its
dispatch outcomes), or `update_last_notice_sent` — ever changes an issue's
`overdue_notices_sent`: starting from a state where every issue carries the
column default 0, every reachable state still carries 0 everywhere. -/
theorem overdue_notices_sent_never_touched (s : LibState) (ops : List FullOp)
    (h : ∀ i ∈ s.issues, i.overdue_notices_sent = 0) :
    ∀ i ∈ (runFullOps s ops).issues, i.overdue_notices_sent = 0 := by
  induction ops generalizing s with
  | nil => exact h
  | cons op rest ih => exact ih (applyFullOp s op) (noticesZero_applyFullOp s op h)

/-- Witness for C10: an issue, a sweep past the due date, a notice update
and a return, run from the one-copy state, leave every count at 0. -/
theorem overdue_notices_sent_never_touched_witness :
    (∀ i ∈ lastCopyState.issues, i.overdue_notices_sent = 0)
    ∧ (∀ i ∈ (runFullOps lastCopyState
        [FullOp.issue ⟨1, 7, 14⟩ 0, FullOp.sweep dispatchOk (20 * 86400),
         FullOp.notice 0 (20 * 86400), FullOp.ret 0 (21 * 86400)]).issues,
        i.overdue_notices_sent = 0) :=
  ⟨by decide, overdue_notices_sent_never_touched lastCopyState
    [FullOp.issue ⟨1, 7, 14⟩ 0, FullOp.sweep dispatchOk (20 * 86400),
     FullOp.notice 0 (20 * 86400), FullOp.ret 0 (21 * 86400)] (by decide)⟩

end NetEnrich
